import Mathlib

/-
Verification development for the KMeans-CIQ color image quantizer (src/ciq.c).

The C program is embedded shallowly: C structs become Lean structures, the
mutable run context becomes explicit state passing, machine integers (`int`,
`long`) are modelled as `Int` (value ranges in this program stay far below
any overflow boundary), `rand()` is modelled as an explicit stream
`randv : Nat → Nat` giving the successive values returned by `rand()`, and
the uninitialized local accumulator `Centroid new` in `ciq_update_centroids`
is modelled as an explicit unspecified input (one per call,
`junk : Nat → Centroid`).  File system effects (readability, allocation
success, writability) are modelled by the boolean oracle fields of `World`.

The double-precision computations of the C code
(`w[i] = 1.0 / cluster_size[i]; new.r = w[i] * sum_r[i];` and
`((double) rand() / RAND_MAX) * total_distance`) are modelled bit-exactly:
`flRound` performs IEEE-754 binary64 rounding (round to nearest, ties to
even) of a positive rational with integer arithmetic, each C operation is
one such rounding, and the final conversion to an integer type truncates
toward zero.  Exponent overflow and subnormals are outside every reachable
range of this program and are not modelled.
-/

set_option maxRecDepth 8000

namespace KCIQ

/-- The C `Point` struct: `int r, g, b; int cluster;`. -/
structure Point where
  r : Int
  g : Int
  b : Int
  cluster : Int
deriving Repr, DecidableEq

/-- The C source declares `typedef Point Centroid;`. -/
abbrev Centroid := Point

/-- The C `Context` struct.  The `size` field of the C struct is
`points.length` (the loader fills exactly `width * height` points), and the
`K` field is `centroids.length` (the centroid array is allocated with `K`
entries and never reallocated). -/
structure Context where
  width : Int
  height : Int
  points : List Point
  centroids : List Centroid
deriving Repr, DecidableEq

/-- `#define EPSILON 8` — squared-distance threshold for centroid change. -/
def EPSILON : Int := 8

/-- `#define MAX_ITERS 100` — iteration cap of the orchestrator loop. -/
def MAX_ITERS : Nat := 100

/-- `RAND_MAX` of the target platform (glibc value, 2^31 - 1). -/
def RAND_MAX : Int := 2147483647

/-- `ciq_distance`: squared Euclidean distance of two RGB triples,
`dr*dr + dg*dg + db*db` computed in `long`. -/
def ciq_distance (p1 p2 : Point) : Int :=
  let dr := p1.r - p2.r
  let dg := p1.g - p2.g
  let db := p1.b - p2.b
  dr * dr + dg * dg + db * db

/-- Inner loop of `ciq_clustering` (the `for (j = 1; ...)` loop): walks the
remaining centroids keeping the current minimal distance `mindist`, the index
`best` of the current best centroid and the index `j` of the next centroid;
a strictly smaller distance updates the best index. -/
def assignLoop (p : Point) : List Centroid → Int → Nat → Nat → Nat
  | [], _, best, _ => best
  | c :: cs, mindist, best, j =>
    let curdist := ciq_distance p c
    if curdist < mindist then assignLoop p cs curdist j (j + 1)
    else assignLoop p cs mindist best (j + 1)

/-- Per-point body of `ciq_clustering`: `mindist` starts as the distance to
`centroids[0]` with `cluster = 0`, then `assignLoop` scans centroids
`1 .. K-1`.  (For an empty centroid array the C code would read out of
bounds; the model leaves the label unchanged, and no claim uses `K = 0`.) -/
def ciq_assign_point (p : Point) (cs : List Centroid) : Int :=
  match cs with
  | [] => p.cluster
  | c0 :: rest => (assignLoop p rest (ciq_distance p c0) 0 1 : Nat)

/-- `ciq_clustering`: assigns every point to the nearest centroid (ties to
the lowest index); only the `cluster` field of the points is written. -/
def ciq_clustering (ctx : Context) : Context :=
  { ctx with
    points := ctx.points.map fun p => { p with cluster := ciq_assign_point p ctx.centroids } }

/-- `cluster_size[i]` as computed by the accumulation pass of
`ciq_update_centroids` (the pass increments bin `points[i].cluster`; binning
a whole pass is the count of points labelled `i`). -/
def cluster_size (pts : List Point) (i : Nat) : Nat :=
  (pts.filter fun p => p.cluster == (i : Int)).length

/-- `sum_r[i]` of the accumulation pass of `ciq_update_centroids`. -/
def sum_r (pts : List Point) (i : Nat) : Int :=
  ((pts.filter fun p => p.cluster == (i : Int)).map Point.r).sum

/-- `sum_g[i]` of the accumulation pass of `ciq_update_centroids`. -/
def sum_g (pts : List Point) (i : Nat) : Int :=
  ((pts.filter fun p => p.cluster == (i : Int)).map Point.g).sum

/-- `sum_b[i]` of the accumulation pass of `ciq_update_centroids`. -/
def sum_b (pts : List Point) (i : Nat) : Int :=
  ((pts.filter fun p => p.cluster == (i : Int)).map Point.b).sum

/-- Floor of the base-2 logarithm of a positive natural number, by
structural recursion on a fuel argument (the number itself more than
suffices), so that it evaluates inside the kernel. -/
def natLog2Fuel : Nat → Nat → Nat
  | 0, _ => 0
  | fuel + 1, n => if 2 ≤ n then natLog2Fuel fuel (n / 2) + 1 else 0

/-- Floor of the base-2 logarithm of `n ≥ 1`. -/
def natLog2 (n : Nat) : Nat := natLog2Fuel n n

/-- Floor of the base-2 logarithm of the positive rational `p / q`
(`p, q ≥ 1`).  For `p ≥ q` this is `natLog2 (p / q)`; for `p < q`, with
`k = natLog2 (q / p)` the value is `-k` when `p / q` is exactly `2 ^ (-k)`
and `-(k + 1)` otherwise. -/
def ratLog2 (p q : Nat) : Int :=
  if q ≤ p then (natLog2 (p / q) : Int)
  else
    let k := natLog2 (q / p)
    if p * 2 ^ k = q then -(k : Int) else -((k : Int) + 1)

/-- Round the positive rational `p / q` to the nearest IEEE-754 binary64
value (round to nearest, ties to even): scale `p / q` by `2 ^ (52 - e)`
with `e = ratLog2 p q` so that it lies in `[2^52, 2^53)`, round that
53-bit significand, and return the exact resulting value as a fraction
`(num, den)` with `den` a power of two.  Exponent overflow and subnormals
are not modelled — every quantity of this program (counts, channel sums,
`rand()` quotients) stays far inside the normal range.  `p = 0` gives 0;
`q = 0` (a division by zero the C program never performs, since
`cluster_size > 0` is checked and `RAND_MAX > 0`) also returns 0. -/
def flRound (p q : Nat) : Nat × Nat :=
  if p = 0 then (0, 1)
  else if q = 0 then (0, 1)
  else
    let e := ratLog2 p q
    let s := 52 - e
    let N := if 0 ≤ s then p * 2 ^ s.toNat else p
    let D := if 0 ≤ s then q else q * 2 ^ (-s).toNat
    let m := N / D
    let r := N % D
    let m2 :=
      if D < 2 * r then m + 1
      else if 2 * r < D then m
      else if m % 2 = 0 then m else m + 1
    if 0 ≤ s then (m2, 2 ^ s.toNat) else (m2 * 2 ^ (-s).toNat, 1)

/-- The C double computation `(int)(w * sum)` with `w = 1.0 / n`, for
nonnegative `sum`: round `1 / n` to binary64, multiply exactly by `sum`
(the `long → double` conversion of `sum` is exact below `2^53`), round the
product to binary64, truncate toward zero. -/
def doubleMeanN (sum n : Nat) : Nat :=
  let w := flRound 1 n
  let pr := flRound (w.1 * sum) w.2
  pr.1 / pr.2

/-- `new.r = w[i] * sum_r[i]` with `w[i] = 1.0 / cluster_size[i]` for a
channel sum of either sign: binary64 rounding is sign-symmetric and the
`(int)` conversion truncates toward zero. -/
def ciq_double_mean (sum : Int) (n : Nat) : Int :=
  if 0 ≤ sum then (doubleMeanN sum.toNat n : Int)
  else -(doubleMeanN (-sum).toNat n : Int)

/-- The three assignments `new.r = w[i] * sum_r[i]; ...` of
`ciq_update_centroids` for a non-empty cluster `i`: the double-arithmetic
per-channel mean (`w[i] = 1.0 / cluster_size[i]`, then one rounded multiply,
then `(int)` truncation toward zero); the `cluster` field of the accumulator
is not assigned and keeps its previous content. -/
def meanAssign (pts : List Point) (i : Nat) (a : Centroid) : Centroid :=
  { a with
    r := ciq_double_mean (sum_r pts i) (cluster_size pts i),
    g := ciq_double_mean (sum_g pts i) (cluster_size pts i),
    b := ciq_double_mean (sum_b pts i) (cluster_size pts i) }

/-- The update loop `for (i = 0; i < ctx->K; i++)` of
`ciq_update_centroids`: the accumulator `acc` models the local variable
`Centroid new`, which is rewritten only when `cluster_size[i] > 0`; the
written value is compared against the old centroid with threshold
`EPSILON`, and stored. -/
def updLoop (pts : List Point) : List Centroid → Nat → Centroid → List Centroid × Bool
  | [], _, _ => ([], false)
  | c :: cs, i, acc =>
    let acc1 := if 0 < cluster_size pts i then meanAssign pts i acc else acc
    let rest := updLoop pts cs (i + 1) acc1
    (acc1 :: rest.1, (decide (ciq_distance c acc1 > EPSILON) || rest.2))

/-- `ciq_update_centroids`.  `new0` is the (unspecified) initial content of
the uninitialized local `Centroid new`. -/
def ciq_update_centroids (new0 : Centroid) (ctx : Context) : Context × Bool :=
  let r := updLoop ctx.points ctx.centroids 0 new0
  ({ ctx with centroids := r.1 }, r.2)

/-- A compound literal `(Centroid){ p.r, p.g, p.b }` — the omitted
`cluster` member is zero-initialized. -/
def colorPoint (p : Point) : Centroid := ⟨p.r, p.g, p.b, 0⟩

/-- The `distances[j] = ciq_distance(ctx->points[j], ctx->centroids[i-1])`
pass of `ciq_init_centroids`: distances of every point to the single,
most recently chosen centroid `prev`. -/
def seedDistances (pts : List Point) (prev : Centroid) : List Int :=
  pts.map fun p => ciq_distance p prev

/-- `random_choice = ((double) rand() / RAND_MAX) * total_distance`
truncated into a `long`: one rounded binary64 division `rand() / RAND_MAX`
(both `int → double` conversions are exact), one rounded multiply by the
total (a nonnegative sum of squared distances, exactly convertible below
`2^53`), then truncation toward zero. -/
def randChoice (r : Nat) (total : Int) : Int :=
  let q := flRound r RAND_MAX.toNat
  let pr := flRound (q.1 * total.toNat) q.2
  (pr.1 / pr.2 : Nat)

/-- The selection scan of `ciq_init_centroids`: accumulate
`cumulative_probability` and take the first point whose running sum reaches
`random_choice`.  Returns `none` when the scan exhausts the points without
triggering (then the C array slot keeps its previous, `memset`-zero value). -/
def selectScan : Int → Int → List Point → List Int → Option Point
  | cum, rc, p :: ps, d :: ds =>
    if cum + d ≥ rc then some p else selectScan (cum + d) rc ps ds
  | _, _, _, _ => none

/-- The outer seeding loop `for (i = 1; i < ctx->K; i++)` of
`ciq_init_centroids`: for each remaining slot, compute the distances of all
points to the previously chosen centroid, draw `random_choice` from
`rand()`, and select the first point whose cumulative distance reaches it. -/
def seedLoop (pts : List Point) (randv : Nat → Nat) : Centroid → Nat → Nat → List Centroid
  | _, _, 0 => []
  | prev, i, n + 1 =>
    let ds := seedDistances pts prev
    let total := ds.sum
    let rc := randChoice (randv i) total
    let c :=
      match selectScan 0 rc pts ds with
      | some p => colorPoint p
      | none => (⟨0, 0, 0, 0⟩ : Centroid)
    c :: seedLoop pts randv c (i + 1) n

/-- `ciq_init_centroids` after its (successful) scratch-buffer allocation:
the first centroid is the point at `rand() % size`, the rest come from
`seedLoop`.  `randv n` is the value of the `n`-th `rand()` call. -/
def ciq_init_centroids (randv : Nat → Nat) (ctx : Context) : Context :=
  match ctx.centroids.length with
  | 0 => ctx
  | k + 1 =>
    let chosen := randv 0 % ctx.points.length
    let c0 := colorPoint (ctx.points.getD chosen ⟨0, 0, 0, 0⟩)
    { ctx with centroids := c0 :: seedLoop ctx.points randv c0 1 k }

/-- The iteration loop of `ciq_quantize`:
`for (i = 0; i < MAX_ITERS; i++) { clustering; changed = update; if (!changed) break; }`.
`t` counts the update calls already performed (used to index the per-call
uninitialized accumulator `junk`); the second component of the result is the
number of iterations executed. -/
def ciq_iterate (junk : Nat → Centroid) : Nat → Nat → Context → Context × Nat
  | 0, t, ctx => (ctx, t)
  | n + 1, t, ctx =>
    let ctx1 := ciq_clustering ctx
    let r := ciq_update_centroids (junk t) ctx1
    if r.2 then ciq_iterate junk n (t + 1) r.1 else (r.1, t + 1)

/-- A decoded input image: header dimensions plus the byte triples of the
pixel stream. -/
structure Image where
  width : Int
  height : Int
  pixels : List (Nat × Nat × Nat)

/-- The external effect oracles of one program run: whether the input is
readable and well-formed, whether each `malloc` succeeds, whether each
output `fopen` succeeds, the `rand()` stream, and the unspecified initial
contents of the uninitialized update accumulator of each update call. -/
structure World where
  input : Option Image
  allocCtx : Bool
  allocPoints : Bool
  allocCentroids : Bool
  allocDistances : Bool
  outputWritable : Bool
  paletteWritable : Bool
  randv : Nat → Nat
  junk : Nat → Centroid

/-- `ciq_init`: allocate the context, read and check the PPM input, allocate
points (loaded with `cluster = -1`) and centroids (`memset` to zero);
returns `NULL` (here `none`) on any failure. -/
def ciq_init (w : World) (K : Nat) : Option Context :=
  if w.allocCtx then
    match w.input with
    | none => none
    | some img =>
      if w.allocPoints && w.allocCentroids then
        some { width := img.width, height := img.height,
               points := img.pixels.map fun t =>
                 (⟨(t.1 : Int), (t.2.1 : Int), (t.2.2 : Int), -1⟩ : Point),
               centroids := List.replicate K ⟨0, 0, 0, 0⟩ }
      else none
  else none

/-- `ciq_quantize`: seeding (which fails exactly when the scratch distance
buffer allocation fails, making the whole call return `false` without
touching the context), then the bounded iteration loop; returns `true`
whether the loop converged or exhausted the cap. -/
def ciq_quantize (w : World) (ctx : Context) : Bool × Context :=
  if w.allocDistances then
    let ctx1 := ciq_init_centroids w.randv ctx
    (true, (ciq_iterate w.junk MAX_ITERS 0 ctx1).1)
  else (false, ctx)

/-- The `(unsigned char)` conversion applied to each `int` channel before
`fwrite`: reduction mod 256. -/
def byteOf (x : Int) : Nat := (Int.emod x 256).toNat

/-- The three bytes written for one centroid. -/
def pixelBytes (c : Centroid) : Nat × Nat × Nat := (byteOf c.r, byteOf c.g, byteOf c.b)

/-- `ciq_remap`: writes the output image (one palette color per point,
indexed by the point's cluster label) and then the palette file (the K
centroids in index order).  Result: (output image bytes if that file was
created, palette bytes if that file was created, return value).
A cluster label outside `[0, K)` would make the C code read out of bounds;
the model returns `centroids.getD` of the truncated label there. -/
def ciq_remap (w : World) (ctx : Context) :
    Option (List (Nat × Nat × Nat)) × Option (List (Nat × Nat × Nat)) × Bool :=
  if w.outputWritable then
    let img := ctx.points.map fun p =>
      pixelBytes (ctx.centroids.getD p.cluster.toNat ⟨0, 0, 0, 0⟩)
    if w.paletteWritable then
      (some img, some (ctx.centroids.map pixelBytes), true)
    else (some img, none, false)
  else (none, none, false)

/-- `ciq_quanization` (sic): initialize, quantize, remap, shutdown.  The
return value of `ciq_quantize` is ignored by the C code (it is only tested
under `__DEBUG__`), and so is the return value of `ciq_remap`; the function
returns `true` whenever `ciq_init` succeeded. -/
def ciq_quanization (w : World) (K : Nat) :
    Bool × Option (List (Nat × Nat × Nat)) × Option (List (Nat × Nat × Nat)) :=
  match ciq_init w K with
  | none => (false, none, none)
  | some ctx =>
    let q := ciq_quantize w ctx
    let r := ciq_remap w q.2
    (true, r.1, r.2.1)

/-- Observable outcome of one program run. -/
structure RunOut where
  exitCode : Nat
  outImage : Option (List (Nat × Nat × Nat))
  palette : Option (List (Nat × Nat × Nat))
deriving Repr, DecidableEq

/-- `main` after argument parsing: exit code 1 exactly when
`ciq_quanization` returned `false`, 0 otherwise. -/
def ciq_main (w : World) (K : Nat) : RunOut :=
  let r := ciq_quanization w K
  { exitCode := if r.1 then 0 else 1, outImage := r.2.1, palette := r.2.2 }

/-- The color channels of a point (the fields the Assigner and Updater must
leave untouched on points). -/
def rgb (p : Point) : Int × Int × Int := (p.r, p.g, p.b)

/-- Color channels of a whole point store. -/
def colors (pts : List Point) : List (Int × Int × Int) := pts.map rgb

/-- State of the update accumulator (the C local `Centroid new`) after the
update loop has processed indices `i0, i0+1, ..., i0+k-1`, starting from
contents `a`. -/
def accFrom (pts : List Point) : Nat → Nat → Centroid → Centroid
  | _, 0, a => a
  | i0, k + 1, a =>
    accFrom pts (i0 + 1) k (if 0 < cluster_size pts i0 then meanAssign pts i0 a else a)

/-- Modelled from the spec: the k-means++ weight of a point when choosing
the next centroid is its squared distance to the nearest of ALL centroids
already chosen (not merely the most recently chosen one); the selection
total is the sum of these weights. -/
def specSeedWeights (pts : List Point) (chosen : List Centroid) : List Int :=
  pts.map fun p =>
    match chosen with
    | [] => 0
    | c :: cs => cs.foldl (fun m c2 => min m (ciq_distance p c2)) (ciq_distance p c)

/-- A 3-pixel input for the seeding-weight comparison. -/
def pts2 : List Point := [⟨0, 0, 0, -1⟩, ⟨10, 0, 0, -1⟩, ⟨4, 0, 0, -1⟩]

/-- A rand stream making the seeder choose point 0 and then point 1. -/
def randv2 : Nat → Nat := fun n => if n = 1 then 925639503 else 0

/-- Seeding context over `pts2` with K = 3. -/
def ctx2 : Context := ⟨3, 1, pts2, List.replicate 3 ⟨0, 0, 0, 0⟩⟩

/-- A run with every external step succeeding. -/
def worldOK : World :=
  ⟨some ⟨1, 1, [(7, 7, 7)]⟩, true, true, true, true, true, true,
    fun _ => 0, fun _ => ⟨0, 0, 0, 0⟩⟩

/-- A run whose only failure is the Seeder's scratch distance-buffer
allocation (`allocDistances = false`); input is a valid 1×1 image and both
output files are writable. -/
def worldSeedFail : World :=
  ⟨some ⟨1, 1, [(7, 7, 7)]⟩, true, true, true, false, true, true,
    fun _ => 0, fun _ => ⟨0, 0, 0, 0⟩⟩

/-- A run whose only failure is creating the palette file. -/
def worldPalFail : World :=
  ⟨some ⟨1, 1, [(7, 7, 7)]⟩, true, true, true, true, true, false,
    fun _ => 0, fun _ => ⟨0, 0, 0, 0⟩⟩

/-- The 7-pixel, one-channel input of the determinism counterexample. -/
def pixC7 : List (Nat × Nat × Nat) :=
  [(20, 0, 0), (32, 0, 0), (19, 0, 0), (19, 0, 0), (45, 0, 0), (33, 0, 0), (33, 0, 0)]

/-- The 7×1 input image of the determinism counterexample. -/
def imgC7 : Image := ⟨7, 1, pixC7⟩

/-- A rand stream whose draws seed the centroids (20,0,0), (19,0,0),
(45,0,0) from `pixC7`. -/
def randC7 : Nat → Nat :=
  fun n => if n = 1 then 280780099 else if n = 2 then 693855783 else 0

/-- A fully successful run over `imgC7` whose uninitialized update
accumulator happens to hold (26,0,0,0). -/
def worldA : World :=
  ⟨some imgC7, true, true, true, true, true, true, randC7, fun _ => ⟨26, 0, 0, 0⟩⟩

/-- The identical run except that the uninitialized update accumulator
happens to hold (24,0,0,0). -/
def worldB : World :=
  ⟨some imgC7, true, true, true, true, true, true, randC7, fun _ => ⟨24, 0, 0, 0⟩⟩

/-- 49 points of color (1,1,1), all labelled 0 (the labelling every
Assigner pass produces when K = 1). -/
def pts49 : List Point := List.replicate 49 ⟨1, 1, 1, 0⟩

/-- Update context over `pts49` with a single centroid: channel sum 49,
count 49, where the double path `(int)((1.0/49)*49)` yields 0. -/
def ctx49 : Context := ⟨7, 7, pts49, [⟨0, 0, 0, 0⟩]⟩

/-- Update context over `pts49` with a second, empty cluster behind the
49-point cluster 0. -/
def ctx49b : Context := ⟨7, 7, pts49, [⟨0, 0, 0, 0⟩, ⟨9, 9, 9, 0⟩]⟩

/-- A fully successful run over a 7×7 image whose 49 pixels are all
(1,1,1), quantized with K = 1. -/
def world49 : World :=
  ⟨some ⟨7, 7, List.replicate 49 (1, 1, 1)⟩, true, true, true, true, true, true,
    fun _ => 0, fun _ => ⟨0, 0, 0, 0⟩⟩

end KCIQ

namespace KCIQ


theorem assignLoop_spec (p : Point) :
    ∀ (cs : List Centroid) (mindist : Int) (best j : Nat),
      (assignLoop p cs mindist best j = best ∧
        ∀ i (hi : i < cs.length), mindist ≤ ciq_distance p (cs.get ⟨i, hi⟩)) ∨
      (∃ i, ∃ hi : i < cs.length,
        assignLoop p cs mindist best j = j + i ∧
        ciq_distance p (cs.get ⟨i, hi⟩) < mindist ∧
        (∀ i2 (hi2 : i2 < cs.length),
          ciq_distance p (cs.get ⟨i, hi⟩) ≤ ciq_distance p (cs.get ⟨i2, hi2⟩)) ∧
        (∀ i2 (hi2 : i2 < cs.length), i2 < i →
          ciq_distance p (cs.get ⟨i, hi⟩) < ciq_distance p (cs.get ⟨i2, hi2⟩))) := by
  intro cs
  induction cs with
  | nil =>
    intro mindist best j
    left
    exact ⟨rfl, fun i hi => absurd hi (by simp)⟩
  | cons c cs ih =>
    intro mindist best j
    by_cases hlt : ciq_distance p c < mindist
    · have hstep : assignLoop p (c :: cs) mindist best j
        = assignLoop p cs (ciq_distance p c) j (j + 1) := by
        simp [assignLoop, hlt]
      rcases ih (ciq_distance p c) j (j + 1) with ⟨heq, hall⟩ | ⟨i, hi, heq, hless, hmin, hstrict⟩
      · right
        refine ⟨0, by simp, ?_, ?_, ?_, ?_⟩
        · rw [hstep, heq]; omega
        · simpa using hlt
        · intro i2 hi2
          cases i2 with
          | zero => simp
          | succ i2 => simpa using hall i2 (by simpa using hi2)
        · intro i2 hi2 h12
          exact absurd h12 (Nat.not_lt_zero _)
      · right
        refine ⟨i + 1, by simpa using Nat.succ_lt_succ hi, ?_, ?_, ?_, ?_⟩
        · rw [hstep, heq]; omega
        · exact lt_trans (by simpa using hless) hlt
        · intro i2 hi2
          cases i2 with
          | zero => simpa using le_of_lt (by simpa using hless)
          | succ i2 => simpa using hmin i2 (by simpa using hi2)
        · intro i2 hi2 h12
          cases i2 with
          | zero => simpa using hless
          | succ i2 => simpa using hstrict i2 (by simpa using hi2) (by omega)
    · have hstep : assignLoop p (c :: cs) mindist best j
        = assignLoop p cs mindist best (j + 1) := by
        simp [assignLoop, hlt]
      have hle : mindist ≤ ciq_distance p c := not_lt.mp hlt
      rcases ih mindist best (j + 1) with ⟨heq, hall⟩ | ⟨i, hi, heq, hless, hmin, hstrict⟩
      · left
        refine ⟨by rw [hstep, heq], ?_⟩
        intro i2 hi2
        cases i2 with
        | zero => simpa using hle
        | succ i2 => simpa using hall i2 (by simpa using hi2)
      · right
        refine ⟨i + 1, by simpa using Nat.succ_lt_succ hi, ?_, ?_, ?_, ?_⟩
        · rw [hstep, heq]; omega
        · simpa using hless
        · intro i2 hi2
          cases i2 with
          | zero =>
            simpa using le_of_lt (lt_of_lt_of_le (by simpa using hless) hle)
          | succ i2 => simpa using hmin i2 (by simpa using hi2)
        · intro i2 hi2 h12
          cases i2 with
          | zero => simpa using lt_of_lt_of_le (by simpa using hless) hle
          | succ i2 => simpa using hstrict i2 (by simpa using hi2) (by omega)

end KCIQ

namespace KCIQ

theorem ciq_assign_point_spec (p : Point) (c0 : Centroid) (rest : List Centroid) :
    ∃ k, ∃ hk : k < (c0 :: rest).length,
      ciq_assign_point p (c0 :: rest) = (k : Int) ∧
      (∀ i (hi : i < (c0 :: rest).length),
        ciq_distance p ((c0 :: rest).get ⟨k, hk⟩) ≤ ciq_distance p ((c0 :: rest).get ⟨i, hi⟩)) ∧
      (∀ i (hi : i < (c0 :: rest).length), i < k →
        ciq_distance p ((c0 :: rest).get ⟨k, hk⟩) < ciq_distance p ((c0 :: rest).get ⟨i, hi⟩)) := by
  rcases assignLoop_spec p rest (ciq_distance p c0) 0 1 with
    ⟨heq, hall⟩ | ⟨i, hi, heq, hless, hmin, hstrict⟩
  · refine ⟨0, by simp, ?_, ?_, ?_⟩
    · simp [ciq_assign_point, heq]
    · intro i2 hi2
      cases i2 with
      | zero => simp
      | succ i2 => simpa using hall i2 (by simpa using hi2)
    · intro i2 hi2 h12
      exact absurd h12 (Nat.not_lt_zero _)
  · refine ⟨i + 1, by simpa using Nat.succ_lt_succ hi, ?_, ?_, ?_⟩
    · simp [ciq_assign_point, heq]; omega
    · intro i2 hi2
      cases i2 with
      | zero => simpa using le_of_lt hless
      | succ i2 => simpa using hmin i2 (by simpa using hi2)
    · intro i2 hi2 h12
      cases i2 with
      | zero => simpa using hless
      | succ i2 => simpa using hstrict i2 (by simpa using hi2) (by omega)

/-- The label written by one Assigner evaluation is a valid centroid index. -/
theorem ciq_assign_point_range (p : Point) (cs : List Centroid) (hcs : cs ≠ []) :
    0 ≤ ciq_assign_point p cs ∧ ciq_assign_point p cs < (cs.length : Int) := by
  match cs with
  | [] => exact absurd rfl hcs
  | c0 :: rest =>
    rcases ciq_assign_point_spec p c0 rest with ⟨k, hk, heq, -, -⟩
    rw [heq]
    exact ⟨Int.natCast_nonneg k, by exact_mod_cast hk⟩

theorem ciq_clustering_points_length (ctx : Context) :
    (ciq_clustering ctx).points.length = ctx.points.length := by
  simp [ciq_clustering]

theorem ciq_clustering_centroids (ctx : Context) :
    (ciq_clustering ctx).centroids = ctx.centroids := rfl

theorem ciq_clustering_colors (ctx : Context) :
    colors (ciq_clustering ctx).points = colors ctx.points := by
  simp only [ciq_clustering, colors, List.map_map]
  rfl

theorem ciq_clustering_get (ctx : Context) (i : Nat) (hi : i < ctx.points.length) :
    (ciq_clustering ctx).points.get ⟨i, by simpa [ciq_clustering] using hi⟩ =
      { ctx.points.get ⟨i, hi⟩ with
        cluster := ciq_assign_point (ctx.points.get ⟨i, hi⟩) ctx.centroids } := by
  simp [ciq_clustering]

end KCIQ

namespace KCIQ


theorem updLoop_length (pts : List Point) :
    ∀ (cs : List Centroid) (i0 : Nat) (acc : Centroid),
      (updLoop pts cs i0 acc).1.length = cs.length := by
  intro cs
  induction cs with
  | nil => intro i0 acc; rfl
  | cons c cs ih => intro i0 acc; simp [updLoop, ih]

theorem updLoop_getD (pts : List Point) :
    ∀ (cs : List Centroid) (i0 : Nat) (acc d : Centroid) (k : Nat), k < cs.length →
      (updLoop pts cs i0 acc).1.getD k d = accFrom pts i0 (k + 1) acc := by
  intro cs
  induction cs with
  | nil => intro i0 acc d k hk; exact absurd hk (by simp)
  | cons c cs ih =>
    intro i0 acc d k hk
    cases k with
    | zero => simp [updLoop, accFrom]
    | succ k =>
      have hk2 : k < cs.length := by simpa using hk
      calc (updLoop pts (c :: cs) i0 acc).1.getD (k + 1) d
          = (updLoop pts cs (i0 + 1)
              (if 0 < cluster_size pts i0 then meanAssign pts i0 acc else acc)).1.getD k d := by
            simp [updLoop]
        _ = accFrom pts (i0 + 1) (k + 1)
              (if 0 < cluster_size pts i0 then meanAssign pts i0 acc else acc) := ih _ _ _ _ hk2
        _ = accFrom pts i0 (k + 2) acc := rfl

theorem accFrom_succ (pts : List Point) :
    ∀ (k i0 : Nat) (a : Centroid),
      accFrom pts i0 (k + 1) a =
        (if 0 < cluster_size pts (i0 + k) then meanAssign pts (i0 + k) (accFrom pts i0 k a)
         else accFrom pts i0 k a) := by
  intro k
  induction k with
  | zero => intro i0 a; simp [accFrom]
  | succ k ih =>
    intro i0 a
    have h1 : accFrom pts i0 (k + 2) a
        = accFrom pts (i0 + 1) (k + 1)
            (if 0 < cluster_size pts i0 then meanAssign pts i0 a else a) := rfl
    rw [h1, ih]
    have h2 : i0 + 1 + k = i0 + (k + 1) := by omega
    rw [h2]
    rfl

theorem updLoop_changed (pts : List Point) :
    ∀ (cs : List Centroid) (i0 : Nat) (acc : Centroid),
      (updLoop pts cs i0 acc).2 = true ↔
        ∃ k, ∃ hk : k < cs.length,
          ciq_distance (cs.get ⟨k, hk⟩)
            ((updLoop pts cs i0 acc).1.getD k ⟨0, 0, 0, 0⟩) > EPSILON := by
  intro cs
  induction cs with
  | nil =>
    intro i0 acc
    constructor
    · intro h; exact absurd h (by simp [updLoop])
    · rintro ⟨k, hk, -⟩; exact absurd hk (by simp)
  | cons c cs ih =>
    intro i0 acc
    constructor
    · intro h
      have hsplit : EPSILON < ciq_distance c
            (if 0 < cluster_size pts i0 then meanAssign pts i0 acc else acc) ∨
          (updLoop pts cs (i0 + 1)
            (if 0 < cluster_size pts i0 then meanAssign pts i0 acc else acc)).2 = true := by
        simpa [updLoop] using h
      rcases hsplit with h1 | h2
      · exact ⟨0, by simp, by simpa [updLoop] using h1⟩
      · rcases (ih (i0 + 1) _).mp h2 with ⟨k, hk, hgt⟩
        exact ⟨k + 1, by simpa using Nat.succ_lt_succ hk, by simpa [updLoop] using hgt⟩
    · rintro ⟨k, hk, hgt⟩
      cases k with
      | zero =>
        have : ciq_distance c
            ((if 0 < cluster_size pts i0 then meanAssign pts i0 acc else acc)) > EPSILON := by
          simpa [updLoop] using hgt
        simp [updLoop, this]
      | succ k =>
        have hk2 : k < cs.length := by simpa using hk
        have : (updLoop pts cs (i0 + 1)
            (if 0 < cluster_size pts i0 then meanAssign pts i0 acc else acc)).2 = true := by
          refine (ih (i0 + 1) _).mpr ⟨k, hk2, ?_⟩
          simpa [updLoop] using hgt
        simp [updLoop, this]

end KCIQ

namespace KCIQ

theorem ciq_update_centroids_length (new0 : Centroid) (ctx : Context) :
    (ciq_update_centroids new0 ctx).1.centroids.length = ctx.centroids.length := by
  simp [ciq_update_centroids, updLoop_length]

theorem ciq_update_centroids_points (new0 : Centroid) (ctx : Context) :
    (ciq_update_centroids new0 ctx).1.points = ctx.points := rfl

/-- The value stored at index `k` by one Updater call is the accumulator
state after processing indices `0 .. k`. -/
theorem ciq_update_centroids_getD (new0 : Centroid) (ctx : Context) (k : Nat)
    (hk : k < ctx.centroids.length) :
    (ciq_update_centroids new0 ctx).1.centroids.getD k ⟨0, 0, 0, 0⟩ =
      accFrom ctx.points 0 (k + 1) new0 := by
  simp only [ciq_update_centroids]
  exact updLoop_getD ctx.points ctx.centroids 0 new0 ⟨0, 0, 0, 0⟩ k hk

/-- A non-empty cluster receives the double-arithmetic per-channel mean of
its assigned points. -/
theorem ciq_update_centroids_mean (new0 : Centroid) (ctx : Context) (k : Nat)
    (hk : k < ctx.centroids.length) (hsz : 0 < cluster_size ctx.points k) :
    rgb ((ciq_update_centroids new0 ctx).1.centroids.getD k ⟨0, 0, 0, 0⟩) =
      (ciq_double_mean (sum_r ctx.points k) (cluster_size ctx.points k),
       ciq_double_mean (sum_g ctx.points k) (cluster_size ctx.points k),
       ciq_double_mean (sum_b ctx.points k) (cluster_size ctx.points k)) := by
  rw [ciq_update_centroids_getD new0 ctx k hk, accFrom_succ]
  simp [hsz, meanAssign, rgb]

/-- If all of the indices `j+1 .. j+d` have empty clusters, the accumulator
does not move past index `j`. -/
theorem accFrom_stable (pts : List Point) (a : Centroid) (j : Nat) :
    ∀ d, (∀ l, j < l → l ≤ j + d → cluster_size pts l = 0) →
      accFrom pts 0 (j + 1 + d) a = accFrom pts 0 (j + 1) a := by
  intro d
  induction d with
  | zero => intro _; rfl
  | succ d ih =>
    intro hall
    have h1 : j + 1 + (d + 1) = (j + 1 + d) + 1 := by omega
    rw [h1, accFrom_succ]
    have h0 : cluster_size pts (0 + (j + 1 + d)) = 0 := by
      have := hall (j + 1 + d) (by omega) (by omega)
      simpa using this
    rw [h0]
    simp only [Nat.lt_irrefl, if_neg (lt_irrefl 0)]
    exact ih (fun l hl1 hl2 => hall l hl1 (by omega))

theorem ciq_update_centroids_changed (new0 : Centroid) (ctx : Context) :
    (ciq_update_centroids new0 ctx).2 = true ↔
      ∃ k, ∃ hk : k < ctx.centroids.length,
        ciq_distance (ctx.centroids.get ⟨k, hk⟩)
          ((ciq_update_centroids new0 ctx).1.centroids.getD k ⟨0, 0, 0, 0⟩) > EPSILON := by
  simpa [ciq_update_centroids] using
    updLoop_changed ctx.points ctx.centroids 0 new0

end KCIQ

namespace KCIQ

theorem seedLoop_length (pts : List Point) (randv : Nat → Nat) :
    ∀ (n : Nat) (prev : Centroid) (i : Nat), (seedLoop pts randv prev i n).length = n := by
  intro n
  induction n with
  | zero => intro prev i; rfl
  | succ n ih => intro prev i; simp [seedLoop, ih]

theorem ciq_init_centroids_points (randv : Nat → Nat) (ctx : Context) :
    (ciq_init_centroids randv ctx).points = ctx.points := by
  cases h : ctx.centroids.length with
  | zero => simp [ciq_init_centroids, h]
  | succ k => simp [ciq_init_centroids, h]

theorem ciq_init_centroids_length (randv : Nat → Nat) (ctx : Context) :
    (ciq_init_centroids randv ctx).centroids.length = ctx.centroids.length := by
  cases h : ctx.centroids.length with
  | zero => simp [ciq_init_centroids, h]
  | succ k => simp [ciq_init_centroids, h, seedLoop_length]

theorem ciq_iterate_count (junk : Nat → Centroid) :
    ∀ (fuel t : Nat) (ctx : Context), (ciq_iterate junk fuel t ctx).2 ≤ t + fuel := by
  intro fuel
  induction fuel with
  | zero => intro t ctx; simp [ciq_iterate]
  | succ n ih =>
    intro t ctx
    simp only [ciq_iterate]
    by_cases h : (ciq_update_centroids (junk t) (ciq_clustering ctx)).2
    · simp only [h, if_true]
      exact le_trans (ih (t + 1) _) (by omega)
    · simp only [h, Bool.false_eq_true, if_false]
      omega

theorem ciq_iterate_colors (junk : Nat → Centroid) :
    ∀ (fuel t : Nat) (ctx : Context),
      colors (ciq_iterate junk fuel t ctx).1.points = colors ctx.points := by
  intro fuel
  induction fuel with
  | zero => intro t ctx; rfl
  | succ n ih =>
    intro t ctx
    simp only [ciq_iterate]
    by_cases h : (ciq_update_centroids (junk t) (ciq_clustering ctx)).2
    · simp only [h, if_true]
      rw [ih (t + 1) _]
      rw [ciq_update_centroids_points, ciq_clustering_colors]
    · simp only [h, Bool.false_eq_true, if_false]
      rw [ciq_update_centroids_points, ciq_clustering_colors]

theorem ciq_iterate_points_length (junk : Nat → Centroid) (fuel t : Nat) (ctx : Context) :
    (ciq_iterate junk fuel t ctx).1.points.length = ctx.points.length := by
  have h := congrArg List.length (ciq_iterate_colors junk fuel t ctx)
  simpa [colors] using h

theorem ciq_iterate_centroids_length (junk : Nat → Centroid) :
    ∀ (fuel t : Nat) (ctx : Context),
      (ciq_iterate junk fuel t ctx).1.centroids.length = ctx.centroids.length := by
  intro fuel
  induction fuel with
  | zero => intro t ctx; rfl
  | succ n ih =>
    intro t ctx
    simp only [ciq_iterate]
    by_cases h : (ciq_update_centroids (junk t) (ciq_clustering ctx)).2
    · simp only [h, if_true]
      rw [ih (t + 1) _]
      rw [ciq_update_centroids_length]
      rfl
    · simp only [h, Bool.false_eq_true, if_false]
      rw [ciq_update_centroids_length]
      rfl

end KCIQ

namespace KCIQ

theorem ciq_clustering_getD (ctx : Context) (i : Nat) (hi : i < ctx.points.length) :
    (ciq_clustering ctx).points.getD i ⟨0, 0, 0, 0⟩ =
      { ctx.points.getD i ⟨0, 0, 0, 0⟩ with
        cluster := ciq_assign_point (ctx.points.getD i ⟨0, 0, 0, 0⟩) ctx.centroids } := by
  have hi2 : i < (ciq_clustering ctx).points.length := by
    rw [ciq_clustering_points_length]; exact hi
  rw [List.getD_eq_get _ _ hi2, List.getD_eq_get _ _ hi]
  simp [ciq_clustering]

/-- C4: for a non-empty point store and K ≥ 1 centroids, one Assigner pass
sets each point's cluster field to the smallest centroid index achieving the
minimum squared distance to that point (ties broken by lowest index), and
mutates nothing else: point colors and all centroids are unchanged by the
Assigner. -/
theorem C4_assigner_argmin_and_pure (ctx : Context) (hne : ctx.points ≠ [])
    (hK : 0 < ctx.centroids.length) :
    (ciq_clustering ctx).centroids = ctx.centroids ∧
    (ciq_clustering ctx).points.length = ctx.points.length ∧
    colors (ciq_clustering ctx).points = colors ctx.points ∧
    ∀ i, i < ctx.points.length →
      ∃ k, ∃ hk : k < ctx.centroids.length,
        ((ciq_clustering ctx).points.getD i ⟨0, 0, 0, 0⟩).cluster = (k : Int) ∧
        (∀ m (hm : m < ctx.centroids.length),
          ciq_distance (ctx.points.getD i ⟨0, 0, 0, 0⟩) (ctx.centroids.get ⟨k, hk⟩) ≤
            ciq_distance (ctx.points.getD i ⟨0, 0, 0, 0⟩) (ctx.centroids.get ⟨m, hm⟩)) ∧
        (∀ m (hm : m < ctx.centroids.length), m < k →
          ciq_distance (ctx.points.getD i ⟨0, 0, 0, 0⟩) (ctx.centroids.get ⟨k, hk⟩) <
            ciq_distance (ctx.points.getD i ⟨0, 0, 0, 0⟩) (ctx.centroids.get ⟨m, hm⟩)) := by
  refine ⟨rfl, ciq_clustering_points_length ctx, ciq_clustering_colors ctx, ?_⟩
  intro i hi
  rw [ciq_clustering_getD ctx i hi]
  match hc : ctx.centroids, hK with
  | c0 :: rest, _ =>
    rcases ciq_assign_point_spec (ctx.points.getD i ⟨0, 0, 0, 0⟩) c0 rest with
      ⟨k, hk, heq, hmin, hstrict⟩
    exact ⟨k, hk, by simpa using heq, hmin, hstrict⟩

theorem C4_assigner_argmin_and_pure_witness :
    (⟨2, 1, [⟨1, 2, 3, -1⟩, ⟨9, 9, 9, -1⟩],
      [⟨0, 0, 0, 0⟩, ⟨10, 10, 10, 0⟩, ⟨0, 0, 0, 0⟩]⟩ : Context).points ≠ [] ∧
    0 < (⟨2, 1, [⟨1, 2, 3, -1⟩, ⟨9, 9, 9, -1⟩],
      [⟨0, 0, 0, 0⟩, ⟨10, 10, 10, 0⟩, ⟨0, 0, 0, 0⟩]⟩ : Context).centroids.length ∧
    (ciq_clustering ⟨2, 1, [⟨1, 2, 3, -1⟩, ⟨9, 9, 9, -1⟩],
      [⟨0, 0, 0, 0⟩, ⟨10, 10, 10, 0⟩, ⟨0, 0, 0, 0⟩]⟩).centroids =
      (⟨2, 1, [⟨1, 2, 3, -1⟩, ⟨9, 9, 9, -1⟩],
        [⟨0, 0, 0, 0⟩, ⟨10, 10, 10, 0⟩, ⟨0, 0, 0, 0⟩]⟩ : Context).centroids :=
  ⟨by decide, by decide,
    (C4_assigner_argmin_and_pure _ (by decide) (by decide)).1⟩

/-- C9: run-wide invariants.  After any Assigner pass every point's cluster
label lies in [0, K); the centroid array length stays K through seeding,
assignment, update and the whole orchestrator loop; and no operation of the
run modifies the r, g, b color fields of the points — only labels change. -/
theorem C9_run_invariants (ctx : Context) (hne : ctx.points ≠ [])
    (hK : 0 < ctx.centroids.length) :
    (∀ i, i < ctx.points.length →
      0 ≤ ((ciq_clustering ctx).points.getD i ⟨0, 0, 0, 0⟩).cluster ∧
      ((ciq_clustering ctx).points.getD i ⟨0, 0, 0, 0⟩).cluster < (ctx.centroids.length : Int)) ∧
    (∀ randv junk fuel,
      ((ciq_iterate junk fuel 0 (ciq_init_centroids randv ctx)).1).centroids.length =
        ctx.centroids.length) ∧
    (∀ randv junk fuel t,
      colors ((ciq_iterate junk fuel t (ciq_init_centroids randv ctx)).1.points) =
        colors ctx.points) ∧
    (∀ new0, (ciq_update_centroids new0 ctx).1.points = ctx.points) := by
  refine ⟨?_, ?_, ?_, fun new0 => rfl⟩
  · intro i hi
    rw [ciq_clustering_getD ctx i hi]
    have hcs : ctx.centroids ≠ [] := by
      intro h
      rw [h] at hK
      exact absurd hK (by simp)
    simpa using ciq_assign_point_range (ctx.points.getD i ⟨0, 0, 0, 0⟩) ctx.centroids hcs
  · intro randv junk fuel
    rw [ciq_iterate_centroids_length, ciq_init_centroids_length]
  · intro randv junk fuel t
    rw [ciq_iterate_colors]
    rw [ciq_init_centroids_points]

theorem C9_run_invariants_witness :
    (⟨1, 1, [⟨3, 4, 5, -1⟩], [⟨0, 0, 0, 0⟩, ⟨9, 9, 9, 0⟩]⟩ : Context).points ≠ [] ∧
    0 < (⟨1, 1, [⟨3, 4, 5, -1⟩], [⟨0, 0, 0, 0⟩, ⟨9, 9, 9, 0⟩]⟩ : Context).centroids.length ∧
    ∀ new0, (ciq_update_centroids new0
      ⟨1, 1, [⟨3, 4, 5, -1⟩], [⟨0, 0, 0, 0⟩, ⟨9, 9, 9, 0⟩]⟩).1.points =
        (⟨1, 1, [⟨3, 4, 5, -1⟩], [⟨0, 0, 0, 0⟩, ⟨9, 9, 9, 0⟩]⟩ : Context).points :=
  ⟨by decide, by decide,
    (C9_run_invariants _ (by decide) (by decide)).2.2.2⟩

end KCIQ

namespace KCIQ

theorem ciq_assign_point_single (p : Point) (c : Centroid) :
    ciq_assign_point p [c] = 0 := rfl

theorem cluster_size_all_zero (pts : List Point) :
    cluster_size (pts.map fun p => { p with cluster := (0 : Int) }) 0 = pts.length := by
  simp [cluster_size, List.filter_map]

theorem sum_r_all_zero (pts : List Point) :
    sum_r (pts.map fun p => { p with cluster := (0 : Int) }) 0 = (pts.map Point.r).sum := by
  simp [sum_r, List.filter_map, List.map_map, Function.comp_def]

theorem sum_g_all_zero (pts : List Point) :
    sum_g (pts.map fun p => { p with cluster := (0 : Int) }) 0 = (pts.map Point.g).sum := by
  simp [sum_g, List.filter_map, List.map_map, Function.comp_def]

theorem sum_b_all_zero (pts : List Point) :
    sum_b (pts.map fun p => { p with cluster := (0 : Int) }) 0 = (pts.map Point.b).sum := by
  simp [sum_b, List.filter_map, List.map_map, Function.comp_def]

/-- C5 fails on the code: the updater's double path is not truncated
division of the sum by the count.  With 49 points of color (1,1,1) in
cluster 0, `sum = count = 49` and the C code computes
`(int)((1.0/49)*49) = 0` while truncated division of the sum by the count
gives 1; consequently the full K = 1 run over a 7×7 image of (1,1,1)
pixels writes the palette entry (0,0,0), not the per-channel mean (1,1,1)
of all input pixels. -/
theorem C5_mean_not_truncated_division :
    cluster_size ctx49.points 0 = 49 ∧
    sum_r ctx49.points 0 = 49 ∧
    rgb ((ciq_update_centroids ⟨0, 0, 0, 0⟩ ctx49).1.centroids.getD 0 ⟨0, 0, 0, 0⟩) =
      (0, 0, 0) ∧
    Int.tdiv (sum_r ctx49.points 0) (cluster_size ctx49.points 0 : Int) = 1 ∧
    rgb ((ciq_update_centroids ⟨0, 0, 0, 0⟩ ctx49).1.centroids.getD 0 ⟨0, 0, 0, 0⟩) ≠
      ((1 : Int), (1 : Int), (1 : Int)) ∧
    (ciq_main world49 1).palette = some [(0, 0, 0)] ∧
    (ciq_main world49 1).palette ≠ some [(1, 1, 1)] := by
  decide

/-- C10 as literally stated fails on the code: the value propagated into an
empty cluster is not the truncated per-channel mean of the preceding
non-empty cluster.  With cluster 0 holding 49 points of color (1,1,1) and
cluster 1 empty, cluster 1 receives the double-path value (0,0,0), while
the truncated mean of cluster 0 is (1,1,1). -/
theorem C10_truncated_mean_counterexample :
    cluster_size ctx49b.points 1 = 0 ∧
    0 < cluster_size ctx49b.points 0 ∧
    rgb ((ciq_update_centroids ⟨0, 0, 0, 0⟩ ctx49b).1.centroids.getD 1 ⟨0, 0, 0, 0⟩) =
      (0, 0, 0) ∧
    (Int.tdiv (sum_r ctx49b.points 0) (cluster_size ctx49b.points 0 : Int),
     Int.tdiv (sum_g ctx49b.points 0) (cluster_size ctx49b.points 0 : Int),
     Int.tdiv (sum_b ctx49b.points 0) (cluster_size ctx49b.points 0 : Int)) =
      ((1 : Int), (1 : Int), (1 : Int)) ∧
    rgb ((ciq_update_centroids ⟨0, 0, 0, 0⟩ ctx49b).1.centroids.getD 1 ⟨0, 0, 0, 0⟩) ≠
      ((1 : Int), (1 : Int), (1 : Int)) := by
  decide

/-- C10 (amended): in every Updater call, an empty cluster i that is
preceded by at least one non-empty cluster receives exactly the value the
loop just computed and stored for the nearest preceding non-empty cluster
j — its double-arithmetic per-channel mean, which can differ from the
exact truncated mean — because the loop reuses the last contents of its
accumulator instead of recomputing or retaining; runs of consecutive empty
clusters therefore all receive that same value. -/
theorem C10_empty_cluster_gets_preceding_mean (ctx : Context) (new0 : Centroid) (i j : Nat)
    (hi : i < ctx.centroids.length) (hji : j < i)
    (hzi : cluster_size ctx.points i = 0)
    (hj : 0 < cluster_size ctx.points j)
    (hgap : ∀ l, j < l → l < i → cluster_size ctx.points l = 0) :
    rgb ((ciq_update_centroids new0 ctx).1.centroids.getD i ⟨0, 0, 0, 0⟩) =
      rgb ((ciq_update_centroids new0 ctx).1.centroids.getD j ⟨0, 0, 0, 0⟩) ∧
    rgb ((ciq_update_centroids new0 ctx).1.centroids.getD i ⟨0, 0, 0, 0⟩) =
      (ciq_double_mean (sum_r ctx.points j) (cluster_size ctx.points j),
       ciq_double_mean (sum_g ctx.points j) (cluster_size ctx.points j),
       ciq_double_mean (sum_b ctx.points j) (cluster_size ctx.points j)) := by
  have houti : rgb ((ciq_update_centroids new0 ctx).1.centroids.getD i ⟨0, 0, 0, 0⟩) =
      (ciq_double_mean (sum_r ctx.points j) (cluster_size ctx.points j),
       ciq_double_mean (sum_g ctx.points j) (cluster_size ctx.points j),
       ciq_double_mean (sum_b ctx.points j) (cluster_size ctx.points j)) := by
    rw [ciq_update_centroids_getD new0 ctx i hi]
    have hstab := accFrom_stable ctx.points new0 j (i - j) ?side
    case side =>
      intro l hl1 hl2
      by_cases hli : l = i
      · rw [hli]; exact hzi
      · exact hgap l hl1 (by omega)
    have hidx : i + 1 = j + 1 + (i - j) := by omega
    rw [hidx, hstab, accFrom_succ]
    simp [hj, meanAssign, rgb]
  have houtj := ciq_update_centroids_mean new0 ctx j (lt_trans hji hi) hj
  exact ⟨by rw [houti, houtj], houti⟩

theorem C10_empty_cluster_gets_preceding_mean_witness :
    rgb ((ciq_update_centroids ⟨1, 1, 1, 1⟩
      ⟨1, 1, [⟨5, 6, 7, 0⟩], [⟨0, 0, 0, 0⟩, ⟨8, 8, 8, 0⟩, ⟨9, 9, 9, 0⟩]⟩).1.centroids.getD 2
        ⟨0, 0, 0, 0⟩) = (5, 6, 7) := by
  have h := C10_empty_cluster_gets_preceding_mean
    ⟨1, 1, [⟨5, 6, 7, 0⟩], [⟨0, 0, 0, 0⟩, ⟨8, 8, 8, 0⟩, ⟨9, 9, 9, 0⟩]⟩ ⟨1, 1, 1, 1⟩ 2 0
    (by decide) (by decide) (by decide) (by decide)
    (by
      intro l hl1 hl2
      have hl : l = 1 := by omega
      subst hl
      decide)
  exact h.2.trans (by decide)

/-- C3 fails on the code: with one point labelled 0 and two centroids, the
empty cluster 1 does not retain its previous centroid (200,200,200); the
Updater overwrites it with the stale accumulator, i.e. cluster 0's mean
(10,10,10). -/
theorem C3_empty_cluster_not_retained :
    cluster_size (⟨1, 1, [⟨10, 10, 10, 0⟩],
        [⟨10, 10, 10, 0⟩, ⟨200, 200, 200, 0⟩]⟩ : Context).points 1 = 0 ∧
    (ciq_update_centroids ⟨0, 0, 0, 0⟩
        ⟨1, 1, [⟨10, 10, 10, 0⟩],
          [⟨10, 10, 10, 0⟩, ⟨200, 200, 200, 0⟩]⟩).1.centroids.getD 1 ⟨0, 0, 0, 0⟩ =
      ⟨10, 10, 10, 0⟩ ∧
    (ciq_update_centroids ⟨0, 0, 0, 0⟩
        ⟨1, 1, [⟨10, 10, 10, 0⟩],
          [⟨10, 10, 10, 0⟩, ⟨200, 200, 200, 0⟩]⟩).1.centroids.getD 1 ⟨0, 0, 0, 0⟩ ≠
      ⟨200, 200, 200, 0⟩ := by decide

end KCIQ

namespace KCIQ


/-- C2 fails on the code: with chosen centroids (0,0,0) and (10,0,0), the
seeder weighs each point by its distance to the most recently chosen
centroid only ([100, 0, 36], total 136), not by its distance to the nearest
of all chosen centroids ([0, 0, 16], total 16). -/
theorem C2_seeder_uses_last_centroid_only :
    (ciq_init_centroids randv2 ctx2).centroids.getD 0 ⟨0, 0, 0, 0⟩ = ⟨0, 0, 0, 0⟩ ∧
    (ciq_init_centroids randv2 ctx2).centroids.getD 1 ⟨0, 0, 0, 0⟩ = ⟨10, 0, 0, 0⟩ ∧
    seedDistances pts2 ⟨10, 0, 0, 0⟩ = [100, 0, 36] ∧
    specSeedWeights pts2 [⟨0, 0, 0, 0⟩, ⟨10, 0, 0, 0⟩] = [0, 0, 16] ∧
    seedDistances pts2 ⟨10, 0, 0, 0⟩ ≠ specSeedWeights pts2 [⟨0, 0, 0, 0⟩, ⟨10, 0, 0, 0⟩] ∧
    (seedDistances pts2 ⟨10, 0, 0, 0⟩).sum = 136 ∧
    (specSeedWeights pts2 [⟨0, 0, 0, 0⟩, ⟨10, 0, 0, 0⟩]).sum = 16 := by
  decide

/-- C6: with a successful scratch-buffer allocation the Orchestrator (i)
returns true (both terminal outcomes are non-errors yielding a usable
context), (ii) executes at most MAX_ITERS = 100 iterations, (iii) stops
right after the first Assigner+Updater pass whose Updater reports no
change, and (iv) otherwise continues with the updated context. -/
theorem C6_orchestrator_loop (w : World) (hw : w.allocDistances = true) :
    (∀ ctx, (ciq_quantize w ctx).1 = true) ∧
    (∀ ctx, (ciq_iterate w.junk MAX_ITERS 0 ctx).2 ≤ MAX_ITERS) ∧
    (∀ ctx t n, (ciq_update_centroids (w.junk t) (ciq_clustering ctx)).2 = false →
      ciq_iterate w.junk (n + 1) t ctx =
        ((ciq_update_centroids (w.junk t) (ciq_clustering ctx)).1, t + 1)) ∧
    (∀ ctx t n, (ciq_update_centroids (w.junk t) (ciq_clustering ctx)).2 = true →
      ciq_iterate w.junk (n + 1) t ctx =
        ciq_iterate w.junk n (t + 1) (ciq_update_centroids (w.junk t) (ciq_clustering ctx)).1) := by
  refine ⟨?_, ?_, ?_, ?_⟩
  · intro ctx; simp [ciq_quantize, hw]
  · intro ctx; simpa using ciq_iterate_count w.junk MAX_ITERS 0 ctx
  · intro ctx t n h
    simp [ciq_iterate, h]
  · intro ctx t n h
    simp [ciq_iterate, h]


theorem C6_orchestrator_loop_witness :
    worldOK.allocDistances = true ∧
    (ciq_quantize worldOK ⟨1, 1, [⟨7, 7, 7, -1⟩], [⟨0, 0, 0, 0⟩]⟩).1 = true :=
  ⟨rfl, (C6_orchestrator_loop worldOK rfl).1 _⟩

end KCIQ

namespace KCIQ

theorem ciq_quantize_points_length (w : World) (ctx : Context) :
    (ciq_quantize w ctx).2.points.length = ctx.points.length := by
  cases h : w.allocDistances with
  | false => simp [ciq_quantize, h]
  | true =>
    simp only [ciq_quantize, h, if_true]
    rw [ciq_iterate_points_length, ciq_init_centroids_points]

theorem ciq_remap_out (w : World) (ctx : Context) (hout : w.outputWritable = true) :
    (ciq_remap w ctx).1 =
      some (ctx.points.map fun p =>
        pixelBytes (ctx.centroids.getD p.cluster.toNat ⟨0, 0, 0, 0⟩)) := by
  by_cases hp : w.paletteWritable <;> simp [ciq_remap, hout, hp]

/-- C8: (i) when both output files can be created, the written image has one
pixel triple per point, each equal to the palette entry at that point's
cluster index (hence to one of the K palette entries), and the palette file
is exactly the K centroids' byte triples in index order (duplicates
included); (ii) a run over a width×height input image writes an output
image of exactly width*height pixel triples. -/
theorem C8_output_matches_palette :
    (∀ (w : World) (ctx : Context), w.outputWritable = true → w.paletteWritable = true →
      (∀ p ∈ ctx.points, 0 ≤ p.cluster ∧ p.cluster < (ctx.centroids.length : Int)) →
      ∃ img pal, (ciq_remap w ctx).1 = some img ∧ (ciq_remap w ctx).2.1 = some pal ∧
        img.length = ctx.points.length ∧
        pal = ctx.centroids.map pixelBytes ∧
        pal.length = ctx.centroids.length ∧
        (∀ i, i < ctx.points.length →
          img.getD i (0, 0, 0) =
            pal.getD (ctx.points.getD i ⟨0, 0, 0, 0⟩).cluster.toNat (0, 0, 0) ∧
          img.getD i (0, 0, 0) ∈ pal)) ∧
    (∀ (w : World) (K : Nat) (im : Image), w.input = some im → w.allocCtx = true →
      w.allocPoints = true → w.allocCentroids = true → w.outputWritable = true →
      im.pixels.length = (im.width * im.height).toNat →
      ∃ l, (ciq_main w K).outImage = some l ∧ l.length = (im.width * im.height).toNat) := by
  constructor
  · intro w ctx hout hpal hlab
    refine ⟨ctx.points.map fun p => pixelBytes (ctx.centroids.getD p.cluster.toNat ⟨0, 0, 0, 0⟩),
      ctx.centroids.map pixelBytes, ?_, ?_, by simp, rfl, by simp, ?_⟩
    · simp [ciq_remap, hout, hpal]
    · simp [ciq_remap, hout, hpal]
    · intro i hi
      have hi2 : i < (ctx.points.map fun p =>
          pixelBytes (ctx.centroids.getD p.cluster.toNat ⟨0, 0, 0, 0⟩)).length := by
        simpa using hi
      have hmem : ctx.points.get ⟨i, hi⟩ ∈ ctx.points := List.get_mem _ _ _
      rcases hlab _ hmem with ⟨h0, h1⟩
      have hlt : (ctx.points.get ⟨i, hi⟩).cluster.toNat < ctx.centroids.length := by omega
      have hlt2 : (ctx.points.get ⟨i, hi⟩).cluster.toNat <
          (ctx.centroids.map pixelBytes).length := by simpa using hlt
      have himg : (ctx.points.map fun p =>
          pixelBytes (ctx.centroids.getD p.cluster.toNat ⟨0, 0, 0, 0⟩)).getD i (0, 0, 0) =
          pixelBytes (ctx.centroids.getD (ctx.points.get ⟨i, hi⟩).cluster.toNat ⟨0, 0, 0, 0⟩) := by
        rw [List.getD_eq_get _ _ hi2]
        simp
      have hgetD : ctx.points.getD i ⟨0, 0, 0, 0⟩ = ctx.points.get ⟨i, hi⟩ :=
        List.getD_eq_get _ _ hi
      have hpalget : (ctx.centroids.map pixelBytes).getD
          (ctx.points.get ⟨i, hi⟩).cluster.toNat (0, 0, 0) =
          pixelBytes (ctx.centroids.getD (ctx.points.get ⟨i, hi⟩).cluster.toNat ⟨0, 0, 0, 0⟩) := by
        rw [List.getD_eq_get _ _ hlt2, List.getD_eq_get _ _ hlt]
        simp
      constructor
      · rw [himg, hgetD, hpalget]
      · rw [himg, ← hpalget, List.getD_eq_get _ _ hlt2]
        exact List.get_mem _ _ _
  · intro w K im hin hctx hpts hcent hout hlen
    have hinit : ciq_init w K =
        some ⟨im.width, im.height,
          im.pixels.map fun t => (⟨(t.1 : Int), (t.2.1 : Int), (t.2.2 : Int), -1⟩ : Point),
          List.replicate K ⟨0, 0, 0, 0⟩⟩ := by
      simp [ciq_init, hin, hctx, hpts, hcent]
    have hmain : (ciq_main w K).outImage =
        (ciq_remap w (ciq_quantize w
          ⟨im.width, im.height,
            im.pixels.map fun t => (⟨(t.1 : Int), (t.2.1 : Int), (t.2.2 : Int), -1⟩ : Point),
            List.replicate K ⟨0, 0, 0, 0⟩⟩).2).1 := by
      simp [ciq_main, ciq_quanization, hinit]
    rw [hmain, ciq_remap_out w _ hout]
    refine ⟨_, rfl, ?_⟩
    rw [List.length_map, ciq_quantize_points_length]
    simpa using hlen

theorem C8_output_matches_palette_witness :
    worldOK.input = some ⟨1, 1, [(7, 7, 7)]⟩ ∧
    ∃ l, (ciq_main worldOK 1).outImage = some l ∧
      l.length = (((1 : Int) * (1 : Int)).toNat) :=
  ⟨rfl, C8_output_matches_palette.2 worldOK 1 ⟨1, 1, [(7, 7, 7)]⟩ rfl rfl rfl rfl rfl
    (by decide)⟩

end KCIQ

namespace KCIQ


/-- C1 fails on the code: when the Seeder's scratch allocation fails,
`ciq_quantize` does report the failure to its caller (it returns false),
but `ciq_quanization` ignores that value, still writes both output files
(from never-clustered garbage labels) and the process exits 0; likewise a
palette-file failure leaves a partial output (the image file exists, the
palette file does not) with exit code 0. -/
theorem C1_failures_do_not_abort_run :
    worldSeedFail.allocDistances = false ∧
    (ciq_quantize worldSeedFail ⟨1, 1, [⟨7, 7, 7, -1⟩], [⟨0, 0, 0, 0⟩]⟩).1 = false ∧
    ciq_main worldSeedFail 1 =
      ⟨0, some [(0, 0, 0)], some [(0, 0, 0)]⟩ ∧
    worldPalFail.paletteWritable = false ∧
    (ciq_main worldPalFail 1).exitCode = 0 ∧
    (ciq_main worldPalFail 1).outImage = some [(7, 7, 7)] ∧
    (ciq_main worldPalFail 1).palette = none := by
  decide


/-- C7 fails on the code: two runs on the identical input image with K = 3
and the identical rand stream, differing only in the contents of the
uninitialized accumulator `Centroid new` of `ciq_update_centroids`, write
different palette files (first entry (26,0,0) versus (24,0,0)): in this run
cluster 0 becomes empty in the second update call, so the uninitialized
accumulator is stored as centroid 0 and reaches the palette. -/
theorem C7_palette_depends_on_uninitialized_memory :
    worldA.input = worldB.input ∧
    worldA.randv = worldB.randv ∧
    worldA.allocCtx = worldB.allocCtx ∧
    worldA.allocPoints = worldB.allocPoints ∧
    worldA.allocCentroids = worldB.allocCentroids ∧
    worldA.allocDistances = worldB.allocDistances ∧
    worldA.outputWritable = worldB.outputWritable ∧
    worldA.paletteWritable = worldB.paletteWritable ∧
    (ciq_main worldA 3).exitCode = 0 ∧
    (ciq_main worldB 3).exitCode = 0 ∧
    (ciq_main worldA 3).outImage = (ciq_main worldB 3).outImage ∧
    (ciq_main worldA 3).palette = some [(26, 0, 0), (19, 0, 0), (35, 0, 0)] ∧
    (ciq_main worldB 3).palette = some [(24, 0, 0), (19, 0, 0), (35, 0, 0)] ∧
    (ciq_main worldA 3).palette ≠ (ciq_main worldB 3).palette := by
  refine ⟨rfl, rfl, rfl, rfl, rfl, rfl, rfl, rfl, ?_, ?_, ?_, ?_, ?_, ?_⟩ <;> decide

end KCIQ
